import Mathlib

/-!
Verification development for the websocket protocol module of the zaqar
gateway (`zaqar/transport/websocket/protocol.py`).

Two components are embedded:

* `NotificationProtocol` — the incremental byte-stream parser
  (`data_received`, `write_status`, `connection_made`).  Bytes are modelled
  as `List Nat`; the side effects of the transport (writes, close) and of
  the fan-out factory (`send_data`) are recorded as an event list in the
  state.  An exception escaping `data_received` is recorded as an
  `NEv.exn` event.
* `MessagingProtocol` — the per-connection session engine (`onMessage`,
  `onClose`, `_authenticate`, `_auth_start`, `_deauthenticate`,
  `_auth_response`).  The external request handler, the authentication
  middleware and the event loop are collaborators: the handler is a record
  of abstract functions, timer arming/cancelling and the middleware
  invocation are recorded as events, and the `datetime` arithmetic of
  `_auth_start` is abstracted to integer seconds.

`print` / `LOG` calls are process logging and are not modelled.
-/

/-! ## Definitions: shallow embedding of `protocol.py` -/

/-- ASCII bytes of a string literal. -/
def ascii (s : String) : List Nat := s.data.map Char.toNat

/-- The line delimiter `b"\r\n"`. -/
def crlf : List Nat := [13, 10]

/-- The header-block terminator `b"\r\n\r\n"`. -/
def crlf2 : List Nat := [13, 10, 13, 10]

def bPOST : List Nat := ascii "POST"

def b405 : List Nat := ascii "405 Not Allowed"

def b400 : List Nat := ascii "400 Bad Request"

def b200 : List Nat := ascii "200 OK"

/-- The fixed part of `b"HTTP/1.0 %s\r\n\r\n"`. -/
def bHTTP10 : List Nat := ascii "HTTP/1.0 "

/-- Python `haystack.split(sep, 1)` restricted to the case where we also
report whether the separator occurs: splits at the first occurrence of
`pat`, returning the part before and the part after. -/
def splitFirst (pat : List Nat) : List Nat → Option (List Nat × List Nat)
  | [] => if pat.isPrefixOf ([] : List Nat) then some ([], []) else none
  | a :: rest =>
    if pat.isPrefixOf (a :: rest) then some ([], (a :: rest).drop pat.length)
    else (splitFirst pat rest).map (fun pr => (a :: pr.1, pr.2))

/-- Python `bytes.split()` whitespace classification. -/
def isSpaceByte (b : Nat) : Bool :=
  b == 32 || b == 9 || b == 10 || b == 13 || b == 11 || b == 12

def isDigitByte (b : Nat) : Bool := 48 ≤ b && b ≤ 57

/-- Helper for `splitTokens`: accumulates the current (reversed) token. -/
def splitTokensAux : List Nat → List Nat → List (List Nat)
  | [], cur => if cur.isEmpty then [] else [cur.reverse]
  | b :: rest, cur =>
    if isSpaceByte b then
      if cur.isEmpty then splitTokensAux rest []
      else cur.reverse :: splitTokensAux rest []
    else splitTokensAux rest (b :: cur)

/-- Python `bytes.split()` with no argument: split on runs of whitespace,
dropping empty tokens. -/
def splitTokens (l : List Nat) : List (List Nat) := splitTokensAux l []

/-- Byte-wise `bytes.lower()`. -/
def lowerByte (b : Nat) : Nat := if 65 ≤ b ∧ b ≤ 90 then b + 32 else b

/-- Python `bytes.strip()`. -/
def stripBytes (l : List Nat) : List Nat :=
  ((l.dropWhile isSpaceByte).reverse.dropWhile isSpaceByte).reverse

/-- Split a header block into its lines at every `\r\n`. -/
def splitHeaderLines : List Nat → List Nat → List (List Nat)
  | [], cur => [cur.reverse]
  | 13 :: 10 :: rest, cur => cur.reverse :: splitHeaderLines rest []
  | b :: rest, cur => splitHeaderLines rest (b :: cur)

/-- Parse one `Name: value` header line; yields the stripped value when the
lower-cased name is `content-length`, mirroring the rfc822 message parsing
used by `mimetools.Message` for the lookup `headers.get(b'content-length')`. -/
def headerLineCL (line : List Nat) : Option (List Nat) :=
  match splitFirst [58] line with
  | none => none
  | some (name, value) =>
    if name.map lowerByte = ascii "content-length" then some (stripBytes value)
    else none

/-- The `content-length` lookup on a header block.  rfc822 stores headers in
a dict keyed by lower-cased name, later duplicates overwriting earlier ones,
so the last matching header wins. -/
def headerGetCL (block : List Nat) : Option (List Nat) :=
  ((splitHeaderLines block []).filterMap headerLineCL).getLast?

def digitsToNat (l : List Nat) : Nat :=
  l.foldl (fun acc b => acc * 10 + (b - 48)) 0

/-- Python `int(s)` on a byte string, restricted to unsigned decimals:
strips whitespace and requires at least one digit; `none` models the
`ValueError` raised otherwise. -/
def parseNat (l : List Nat) : Option Nat :=
  let t := stripBytes l
  if t.isEmpty then none
  else if t.all isDigitByte then some (digitsToNat t) else none

/-- Embedding of `self._state` of `NotificationProtocol`. -/
inductive NPhase
  | INIT
  | HEADERS
  | BODY
deriving DecidableEq, Repr

/-- Observable effects of the notification protocol: a `send_data` call on
the factory, a raw write on the transport, closing the transport, and an
exception escaping `data_received`. -/
inductive NEv
  | sendData (payload : List Nat) (subscriber : List Nat)
  | wrote (bytes : List Nat)
  | close
  | exn (msg : String)
deriving DecidableEq, Repr

/-- State of one `NotificationProtocol` connection, plus the trace of
observable effects. -/
structure NState where
  dataBuf : List Nat
  phase : NPhase
  subscriberId : Option (List Nat)
  contentLength : Nat
  out : List NEv
deriving DecidableEq, Repr

/-- Source `connection_made`: fresh buffer, INIT phase, no subscriber, length 0. -/
def initNState : NState :=
  { dataBuf := [], phase := NPhase.INIT, subscriberId := none,
    contentLength := 0, out := [] }

/-- Source `write_status(status)`: writes `b"HTTP/1.0 %s\r\n\r\n" % status` and
closes the transport. -/
def write_status (s : NState) (status : List Nat) : NState :=
  { s with out := s.out ++ [NEv.wrote (bHTTP10 ++ status ++ crlf2), NEv.close] }

/-- Embedding of `self._data.extend(data)`: the buffer grows, nothing else changes. -/
def appendBuf (s : NState) (b : List Nat) : NState :=
  { s with dataBuf := s.dataBuf ++ b }

/-- The `if self._state == 'BODY'` block of `data_received`. -/
def bodyStep (s : NState) : NState :=
  if s.phase = NPhase.BODY then
    if s.contentLength ≤ s.dataBuf.length then
      match s.subscriberId with
      | some sid =>
        if sid.isEmpty then write_status s b400
        else write_status
          { s with out := s.out ++ [NEv.sendData s.dataBuf sid] } b200
      | none => write_status s b400
    else s
  else s

/-- The `if self._state == 'HEADERS' and b'\r\n\r\n' in self._data` block of
`data_received`, continuing into the BODY block unless it returns early. -/
def headersStep (s : NState) : NState :=
  if s.phase = NPhase.HEADERS then
    match splitFirst crlf2 s.dataBuf with
    | none => bodyStep s
    | some (hb, rest) =>
      let s1 := { s with dataBuf := rest }
      match headerGetCL hb with
      | none => write_status s1 b400
      | some v =>
        if v.isEmpty then write_status s1 b400
        else
          match parseNat v with
          | none => { s1 with out := s1.out ++ [NEv.exn "ValueError: invalid literal for int"] }
          | some n => bodyStep { s1 with contentLength := n, phase := NPhase.BODY }
  else bodyStep s

/-- The `if self._state == 'INIT' and b'\r\n' in self._data` block of
`data_received`, continuing into the later blocks unless it returns early.
A first line that does not unpack into exactly three tokens raises
`ValueError` (recorded as `NEv.exn`), after `self._data` was already
replaced by the remainder. -/
def initStep (s : NState) : NState :=
  if s.phase = NPhase.INIT then
    match splitFirst crlf s.dataBuf with
    | none => headersStep s
    | some (fl, rest) =>
      let s1 := { s with dataBuf := rest }
      match splitTokens fl with
      | [verb, uri, _ver] =>
        if verb = bPOST then
          headersStep
            { s1 with phase := NPhase.HEADERS, subscriberId := some (uri.drop 1) }
        else write_status s1 b405
      | _ => { s1 with out := s1.out ++ [NEv.exn "ValueError: unpack"] }
  else headersStep s

/-- Source `data_received(data)`: extend the buffer, then run the three phase
blocks in order. -/
def data_received (s : NState) (chunk : List Nat) : NState :=
  initStep (appendBuf s chunk)

/-- Feeding a sequence of chunks one after another. -/
def feedAll (s : NState) (cs : List (List Nat)) : NState :=
  cs.foldl data_received s

/-- Scenario D input bytes. -/
def dMsg : List Nat := ascii "POST /sub1 HTTP/1.1\r\nContent-Length: 5\r\n\r\nhello"

/-- A decoded text frame: `payload.get('action')` and
`payload.get('headers')`, the only keys the protocol reads.  `headers` is
`none` when the key is absent from the JSON object. -/
structure Payload where
  action : Option String
  headers : Option (List (String × String))
deriving DecidableEq, Repr

/-- The dict bodies the protocol builds for responses: either an object
with key `error` or one with key `message`. -/
inductive RespBody
  | err (text : String)
  | msg (text : String)
deriving DecidableEq, Repr

/-- The external request handler collaborator (section 6 of the design):
`create_response`, `create_request`, `validate_request`, `process_request`,
`verify_signature`.  `process_request(req, self)` receives the protocol
object as execution context, identified here by its `proto_id`. -/
structure Handler (Req Resp Secret : Type) where
  create_response : Nat → RespBody → Option Req → Resp
  create_request : Payload → Req
  validate_request : Payload → Req → Option Resp
  process_request : Req → Nat → Resp
  verify_signature : Secret → Payload → Bool

/-- Per-listener configuration of the protocol: whether an
`auth_strategy` is configured (`None` → `false`), the factory's
`_secret_key`, and this connection's `proto_id`. -/
structure MConfig (Secret : Type) where
  authStrategy : Bool
  secretKey : Secret
  protoId : Nat
deriving DecidableEq, Repr

/-- Values of the synthesized WSGI environment (`_fake_env` holds both
strings and the integer port). -/
inductive EnvVal
  | str (s : String)
  | num (n : Nat)
deriving DecidableEq, Repr

/-- Embedding of `MessagingProtocol._fake_env`. -/
def fakeEnv : List (String × EnvVal) :=
  [("REQUEST_METHOD", EnvVal.str "POST"),
   ("SERVER_NAME", EnvVal.str "zaqar"),
   ("SERVER_PORT", EnvVal.num 80),
   ("SERVER_PROTOCOL", EnvVal.str "HTTP/1.1"),
   ("PATH_INFO", EnvVal.str "/"),
   ("SCRIPT_NAME", EnvVal.str ""),
   ("wsgi.url_scheme", EnvVal.str "http")]

/-- Source `_header_to_env_var(key)`: `'HTTP_%s' % key.replace('-', '_').upper()`. -/
def header_to_env_var (key : String) : String :=
  "HTTP_" ++ key.map (fun c => if c = '-' then '_' else c.toUpper)

/-- The environment handed to the authentication middleware: `_fake_env`
updated with the HTTP-prefixed frame headers.  The updated keys all carry
the `HTTP_` prefix while no `_fake_env` key does, so the dict update is a
disjoint merge, modelled by appending. -/
def envOf (hs : List (String × String)) : List (String × EnvVal) :=
  fakeEnv ++ hs.map (fun kv => (header_to_env_var kv.1, EnvVal.str kv.2))

/-- Observable effects of the session protocol: a response frame sent, the
authentication middleware invoked with an environment, an expiry timer
cancelled or armed (`loop.call_later`), `sendClose`, and an exception
escaping the callback. -/
inductive MEv (Resp : Type)
  | sentResponse (r : Resp)
  | authInvoked (env : List (String × EnvVal))
  | timerCancelled
  | timerScheduled (delay : Int)
  | sentClose (code : Nat) (reason : String)
  | exn (msg : String)
deriving DecidableEq, Repr

/-- Mutable state of one `MessagingProtocol` connection
(`_authentified`, `_auth_app`, `_deauth_handle`), plus the trace of
observable effects.  `deauthHandle` records the delay the armed timer was
scheduled with; `none` models `_deauth_handle is None`. -/
structure MState (Resp : Type) where
  authentified : Bool
  authApp : Bool
  deauthHandle : Option Int
  out : List (MEv Resp)
deriving DecidableEq, Repr

/-- State right after `__init__`. -/
def initMState {Resp : Type} : MState Resp :=
  { authentified := false, authApp := false, deauthHandle := none, out := [] }

/-- Source `_send_response(resp)`. -/
def send_response {Resp : Type} (s : MState Resp) (r : Resp) : MState Resp :=
  { s with out := s.out ++ [MEv.sentResponse r] }

/-- Source `_authenticate(payload)`: wraps `_auth_start` into the configured
strategy (a `TypeError` when no strategy is configured, since
`self._auth_strategy` is `None` then), stores the resulting app in
`_auth_app`, builds the environment from `payload.get('headers')` — an
`AttributeError` when the key is absent, since `.items()` is called on
`None` — and invokes the app. -/
def authenticate {Resp Secret : Type} (cfg : MConfig Secret) (s : MState Resp)
    (p : Payload) : MState Resp :=
  if cfg.authStrategy then
    let s1 := { s with authApp := true }
    match p.headers with
    | none =>
      { s1 with out := s1.out ++ [MEv.exn "AttributeError: NoneType object has no attribute items"] }
    | some hs => { s1 with out := s1.out ++ [MEv.authInvoked (envOf hs)] }
  else
    { s with out := s.out ++ [MEv.exn "TypeError: NoneType object is not callable"] }

/-- Source `_deauthenticate()`: reset `_authentified` and send close code 4003.
Note that `_deauth_handle` is left untouched by the source. -/
def deauthenticate {Resp : Type} (s : MState Resp) : MState Resp :=
  { s with authentified := false,
           out := s.out ++ [MEv.sentClose 4003 "Authentication expired."] }

/-- Source `_auth_start(env, start_response)`: mark the session authenticated,
drop the pending app, compute `delta = expire − now` in seconds (the
`parse_isotime`/`datetime` arithmetic abstracted to integer timestamps),
cancel any existing expiry timer, arm a new one for `delta`, and finish by
calling `start_response('200 OK', [])`. -/
def auth_start {Resp : Type} (sr : MState Resp → List Nat → MState Resp)
    (s : MState Resp) (expire now : Int) : MState Resp :=
  let s1 := { s with authentified := true, authApp := false }
  let s2 :=
    match s1.deauthHandle with
    | some _ => { s1 with out := s1.out ++ [MEv.timerCancelled] }
    | none => s1
  let s3 := { s2 with deauthHandle := some (expire - now),
                      out := s2.out ++ [MEv.timerScheduled (expire - now)] }
  sr s3 b200

/-- Source `_auth_response(status, message)`: parse the leading status-code token
with `int(status.split()[0])` and send either the failure or the success
response, both tagged as replies to an `"authenticate"` request. -/
def auth_response {Req Resp Secret : Type} (h : Handler Req Resp Secret)
    (s : MState Resp) (status : List Nat) : MState Resp :=
  match splitTokens status with
  | [] => { s with out := s.out ++ [MEv.exn "IndexError: list index out of range"] }
  | tok :: _ =>
    match parseNat tok with
    | none => { s with out := s.out ++ [MEv.exn "ValueError: invalid literal for int"] }
    | some code =>
      let req := h.create_request { action := some "authenticate", headers := none }
      if code ≠ 200 then
        send_response s (h.create_response code (RespBody.err "Authentication failed.") (some req))
      else
        send_response s (h.create_response 200 (RespBody.msg "Authentified.") (some req))

/-- An inbound websocket message: a binary frame, or a text frame together
with the outcome of `json.loads` on it (the `ValueError` message on
failure). -/
inductive InMsg
  | binaryMsg (len : Nat)
  | textMsg (decoded : Except String Payload)

/-- Membership test `'URL-Signature' in payload.get('headers', \x7b\x7d)`. -/
def hasURLSig (p : Payload) : Bool :=
  (p.headers.getD []).any (fun kv => kv.1 == "URL-Signature")

/-- Source `onMessage(payload, isBinary)`. -/
def onMessage {Req Resp Secret : Type} (cfg : MConfig Secret)
    (h : Handler Req Resp Secret) (s : MState Resp) (m : InMsg) : MState Resp :=
  match m with
  | InMsg.binaryMsg _ =>
    send_response s (h.create_response 400 (RespBody.err "Schema validation failed.") none)
  | InMsg.textMsg (Except.error e) =>
    send_response s (h.create_response 400 (RespBody.err e) none)
  | InMsg.textMsg (Except.ok p) =>
    let req := h.create_request p
    match h.validate_request p req with
    | some resp => send_response s resp
    | none =>
      if cfg.authStrategy && !s.authentified then
        if s.authApp || !(p.action == some "authenticate") then
          if hasURLSig p then
            if h.verify_signature cfg.secretKey p then
              send_response s (h.process_request req cfg.protoId)
            else
              send_response s (h.create_response 403 (RespBody.err "Not authentified.") (some req))
          else
            send_response s (h.create_response 403 (RespBody.err "Not authentified.") (some req))
        else authenticate cfg s p
      else if p.action == some "authenticate" then
        authenticate cfg s p
      else
        send_response s (h.process_request req cfg.protoId)

/-- Source `onClose(wasClean, code, reason)`: the source only logs; in particular
it does not touch `_deauth_handle`. -/
def onClose {Resp : Type} (s : MState Resp) : MState Resp := s

/-- A free concrete response type: it records exactly which handler entry
point produced it. -/
inductive CResp
  | made (status : Nat) (body : RespBody) (req : Option Payload)
  | processed (req : Payload) (protoId : Nat)
deriving DecidableEq, Repr

/-- A concrete handler: requests are the payloads themselves, validation
always passes, and a signature verifies iff the pair
`("URL-Signature", "good")` is among the headers. -/
def cHandler : Handler Payload CResp Nat :=
  { create_response := fun c b r => CResp.made c b r,
    create_request := fun p => p,
    validate_request := fun _ _ => none,
    process_request := fun r pid => CResp.processed r pid,
    verify_signature := fun _ p =>
      (p.headers.getD []).any (fun kv => kv == ("URL-Signature", "good")) }

/-- An authenticated session whose expiry timer is armed for 60 seconds. -/
def c3state : MState CResp :=
  { authentified := true, authApp := false, deauthHandle := some 60, out := [] }

/-- A listener with no authentication strategy configured. -/
def c2cfg : MConfig Nat := { authStrategy := false, secretKey := 0, protoId := 5 }

/-- A valid non-authenticate frame. -/
def c2p : Payload := { action := some "queue_list", headers := some [] }

/-- A valid frame whose action is `authenticate`. -/
def c2pAuth : Payload := { action := some "authenticate", headers := some [] }

/-- A listener requiring authentication, with secret key 9. -/
def c8cfg : MConfig Nat := { authStrategy := true, secretKey := 9, protoId := 2 }

/-- A frame without an URL-Signature header. -/
def c8pNoSig : Payload := { action := some "queue_list", headers := some [] }

/-- A frame whose URL-Signature verifies against `cHandler`. -/
def c8pGood : Payload :=
  { action := some "queue_list", headers := some [("URL-Signature", "good")] }

/-- A frame whose URL-Signature fails verification. -/
def c8pBad : Payload :=
  { action := some "queue_list", headers := some [("URL-Signature", "bad")] }

/-- An authenticate frame whose payload has no `headers` key. -/
def c10p : Payload := { action := some "authenticate", headers := none }

/-- A listener requiring authentication. -/
def c10cfg : MConfig Nat := { authStrategy := true, secretKey := 0, protoId := 3 }

/-- The initial state of the C10 session, at the concrete response type. -/
def c10init : MState CResp := initMState

/-- A listener requiring authentication. -/
def c1cfg : MConfig Nat := { authStrategy := true, secretKey := 0, protoId := 1 }

/-- A complete authenticate frame with credentials. -/
def c1frame : Payload :=
  { action := some "authenticate", headers := some [("X-Auth-Token", "tok")] }

/-- Session state after the `authenticate` frame was received. -/
def c1s1 : MState CResp :=
  onMessage c1cfg cHandler initMState (InMsg.textMsg (Except.ok c1frame))

/-- Session state after the authenticator resolved successfully with an
expiry 60 seconds ahead: authenticated, timer armed for 60 seconds. -/
def c1s2 : MState CResp := auth_start (auth_response cHandler) c1s1 60 0

/-- A notification whose request line has only two tokens. -/
def c5badLine : List Nat := ascii "POST /sub1\r\nContent-Length: 5\r\n\r\nhello"

/-- A notification with a GET verb. -/
def c5wBadVerb : List Nat := ascii "GET /sub1 HTTP/1.1\r\nContent-Length: 5\r\n\r\nhello"

/-- A notification whose headers lack a content-length. -/
def c5wNoCL : List Nat := ascii "POST /sub1 HTTP/1.1\r\nFoo: 1\r\n\r\nhello"

/-- The state right after a successful INIT transition. -/
def afterInit (s : NState) (rest uri : List Nat) : NState :=
  { s with dataBuf := rest, phase := NPhase.HEADERS, subscriberId := some (uri.drop 1) }

/-- A well-formed notification message, phrased through the parser's own
splitting functions: a request line `POST <uri> <version>` terminated by
the first `\r\n`, a header block terminated by the first `\r\n\r\n` whose
content-length header parses to exactly the body length, and a nonempty
subscriber id. -/
def wellFormedMsg (m : List Nat) : Prop :=
  ∃ rl uri ver hb body v,
    m = rl ++ crlf ++ hb ++ crlf2 ++ body ∧
    splitFirst crlf m = some (rl, hb ++ crlf2 ++ body) ∧
    splitTokens rl = [bPOST, uri, ver] ∧
    splitFirst crlf2 (hb ++ crlf2 ++ body) = some (hb, body) ∧
    headerGetCL hb = some v ∧
    v.isEmpty = false ∧
    parseNat v = some body.length ∧
    (uri.drop 1).isEmpty = false

/-- A fresh parser state holding `buf`. -/
def pState (buf : List Nat) : NState :=
  { dataBuf := buf, phase := NPhase.INIT, subscriberId := none, contentLength := 0, out := [] }

/-- A quiet parser state in HEADERS phase. -/
def hState (buf uri : List Nat) : NState :=
  { dataBuf := buf, phase := NPhase.HEADERS, subscriberId := some (uri.drop 1), contentLength := 0, out := [] }

/-- A quiet parser state in BODY phase. -/
def bState (buf uri : List Nat) (n : Nat) : NState :=
  { dataBuf := buf, phase := NPhase.BODY, subscriberId := some (uri.drop 1), contentLength := n, out := [] }

/-- One-byte-at-a-time chunking of the Scenario D message. -/
def dChunks : List (List Nat) := dMsg.map (fun b => [b])

/-! ## Theorems -/

/-- The success path of `_auth_start` ends in `start_response('200 OK', [])`,
which sends the 200 reply tagged as an `"authenticate"` response. -/
theorem auth_response_200 {Req Resp Secret : Type} (h : Handler Req Resp Secret)
    (s : MState Resp) :
    auth_response h s b200 =
      send_response s (h.create_response 200 (RespBody.msg "Authentified.")
        (some (h.create_request { action := some "authenticate", headers := none }))) := by
  have h1 : splitTokens b200 = [[50, 48, 48], [79, 75]] := by decide
  have h2 : parseNat [50, 48, 48] = some 200 := by decide
  simp [auth_response, h1, h2]

/-- C7: for every text frame that fails to decode as JSON, `onMessage`
replies with status 400 and an error body carrying the parse-failure
message, nothing but that response is emitted (no exception event), the
session fields are untouched, and sending the same invalid frame twice
yields two independent, identical error responses. -/
theorem claim_C7 {Req Resp Secret : Type} (cfg : MConfig Secret)
    (h : Handler Req Resp Secret) (s : MState Resp) (e : String) :
    onMessage cfg h s (InMsg.textMsg (Except.error e)) =
      send_response s (h.create_response 400 (RespBody.err e) none) ∧
    onMessage cfg h (onMessage cfg h s (InMsg.textMsg (Except.error e)))
        (InMsg.textMsg (Except.error e)) =
      send_response (send_response s (h.create_response 400 (RespBody.err e) none))
        (h.create_response 400 (RespBody.err e) none) :=
  ⟨rfl, rfl⟩

/-- C9: when the authenticator resolves with status 200 (the middleware
invokes `_auth_start`, which ends in `start_response('200 OK', [])`), the
session becomes authenticated, the pending attempt is cleared, an existing
expiry timer is cancelled, a fresh one-shot timer is armed for
`expire − now` seconds — unconditionally, also for zero or negative
delays — and the 200 `Authentified.` response tagged as the reply to an
`"authenticate"` action is sent. -/
theorem claim_C9 {Req Resp Secret : Type} (h : Handler Req Resp Secret)
    (s : MState Resp) (expire now : Int) :
    (auth_start (auth_response h) s expire now).authentified = true ∧
    (auth_start (auth_response h) s expire now).authApp = false ∧
    (auth_start (auth_response h) s expire now).deauthHandle = some (expire - now) ∧
    (auth_start (auth_response h) s expire now).out =
      s.out ++
        (match s.deauthHandle with
         | some _ => [MEv.timerCancelled]
         | none => []) ++
        [MEv.timerScheduled (expire - now),
         MEv.sentResponse (h.create_response 200 (RespBody.msg "Authentified.")
           (some (h.create_request { action := some "authenticate", headers := none })))] := by
  cases hd : s.deauthHandle <;>
    simp [auth_start, hd, auth_response_200, send_response]

/-- C3 counterexample: the claim says the expiry callback sets the timer
handle back to null, but `_deauthenticate` leaves `_deauth_handle` exactly
as it was: from a state holding a handle armed for 60 seconds, the handle
is still there after the callback runs. -/
theorem claim_C3_counterexample :
    (deauthenticate c3state).deauthHandle ≠ none ∧
    (deauthenticate c3state).deauthHandle = some 60 := by
  constructor <;> decide

/-- C3 (amended): whenever the expiry timer fires, the session transitions
to Unauthenticated and the connection is closed with close code 4003 and
reason "Authentication expired."; the timer handle is left unchanged (the
source never clears `_deauth_handle`). -/
theorem claim_C3 {Resp : Type} (s : MState Resp) :
    (deauthenticate s).authentified = false ∧
    (deauthenticate s).out = s.out ++ [MEv.sentClose 4003 "Authentication expired."] ∧
    (deauthenticate s).deauthHandle = s.deauthHandle :=
  ⟨rfl, rfl, rfl⟩

/-- C2 (amended): with no authentication strategy configured or the session
already authenticated, a structurally valid frame whose action is not
`"authenticate"` is dispatched directly to the handler's
`process_request` with the session as context, and the result is the
response sent back.  (A frame whose action is `"authenticate"` is instead
routed to the authentication flow — see the counterexample.) -/
theorem claim_C2 {Req Resp Secret : Type} (cfg : MConfig Secret)
    (h : Handler Req Resp Secret) (s : MState Resp) (p : Payload)
    (hauth : cfg.authStrategy = false ∨ s.authentified = true)
    (hval : h.validate_request p (h.create_request p) = none)
    (hact : p.action ≠ some "authenticate") :
    onMessage cfg h s (InMsg.textMsg (Except.ok p)) =
      send_response s (h.process_request (h.create_request p) cfg.protoId) := by
  have hc : (cfg.authStrategy && !s.authentified) = false := by
    rcases hauth with h1 | h1 <;> simp [h1]
  have ha : (p.action == some "authenticate") = false := by
    simp [hact]
  simp [onMessage, hval, hc, ha]

/-- C2 witness: a concrete non-`authenticate` frame on a listener without
an auth strategy is dispatched to `process_request`. -/
theorem claim_C2_witness :
    cHandler.validate_request c2p (cHandler.create_request c2p) = none ∧
    c2p.action ≠ some "authenticate" ∧
    onMessage c2cfg cHandler initMState (InMsg.textMsg (Except.ok c2p)) =
      send_response initMState (cHandler.process_request (cHandler.create_request c2p) c2cfg.protoId) :=
  ⟨rfl, by decide,
    claim_C2 c2cfg cHandler initMState c2p (Or.inl rfl) rfl (by decide)⟩

/-- C2 counterexample: the claim asserts direct dispatch "for every action
value, including `authenticate`", but a structurally valid
`\x7b"action": "authenticate"\x7d` frame on a listener with no auth strategy is
routed to `_authenticate`, where calling the `None` strategy raises a
`TypeError`; no `process_request` response is ever sent. -/
theorem claim_C2_counterexample :
    (onMessage c2cfg cHandler (initMState : MState CResp)
        (InMsg.textMsg (Except.ok c2pAuth))).out =
      [MEv.exn "TypeError: NoneType object is not callable"] ∧
    (onMessage c2cfg cHandler (initMState : MState CResp)
        (InMsg.textMsg (Except.ok c2pAuth))).out ≠
      [MEv.sentResponse (cHandler.process_request (cHandler.create_request c2pAuth) c2cfg.protoId)] := by
  constructor <;> decide

/-- C8: while authentication is required and the session is not yet
authenticated, a structurally valid frame with a pending auth attempt or a
non-`"authenticate"` action is handled by signature: no `URL-Signature`
header → 403 `Not authentified.`; header present and the external
verification against the listener secret succeeds → dispatched to
`process_request`; verification fails → the same 403 response. -/
theorem claim_C8 {Req Resp Secret : Type} (cfg : MConfig Secret)
    (h : Handler Req Resp Secret) (s : MState Resp) (p : Payload)
    (hcfg : cfg.authStrategy = true) (hna : s.authentified = false)
    (hpend : s.authApp = true ∨ p.action ≠ some "authenticate")
    (hval : h.validate_request p (h.create_request p) = none) :
    (hasURLSig p = false →
      onMessage cfg h s (InMsg.textMsg (Except.ok p)) =
        send_response s (h.create_response 403 (RespBody.err "Not authentified.")
          (some (h.create_request p)))) ∧
    (hasURLSig p = true → h.verify_signature cfg.secretKey p = true →
      onMessage cfg h s (InMsg.textMsg (Except.ok p)) =
        send_response s (h.process_request (h.create_request p) cfg.protoId)) ∧
    (hasURLSig p = true → h.verify_signature cfg.secretKey p = false →
      onMessage cfg h s (InMsg.textMsg (Except.ok p)) =
        send_response s (h.create_response 403 (RespBody.err "Not authentified.")
          (some (h.create_request p)))) := by
  have hb : (s.authApp || !(p.action == some "authenticate")) = true := by
    rcases hpend with h1 | h1 <;> simp [h1]
  refine ⟨fun hsig => ?_, fun hsig hver => ?_, fun hsig hver => ?_⟩
  · simp [onMessage, hval, hcfg, hna, hb, hsig]
  · simp [onMessage, hval, hcfg, hna, hb, hsig, hver]
  · simp [onMessage, hval, hcfg, hna, hb, hsig, hver]

/-- C8 witness: the three branches at concrete frames on an unauthenticated
session with an auth strategy configured. -/
theorem claim_C8_witness :
    onMessage c8cfg cHandler initMState (InMsg.textMsg (Except.ok c8pNoSig)) =
      send_response initMState (cHandler.create_response 403 (RespBody.err "Not authentified.")
        (some (cHandler.create_request c8pNoSig))) ∧
    onMessage c8cfg cHandler initMState (InMsg.textMsg (Except.ok c8pGood)) =
      send_response initMState (cHandler.process_request (cHandler.create_request c8pGood) c8cfg.protoId) ∧
    onMessage c8cfg cHandler initMState (InMsg.textMsg (Except.ok c8pBad)) =
      send_response initMState (cHandler.create_response 403 (RespBody.err "Not authentified.")
        (some (cHandler.create_request c8pBad))) :=
  ⟨(claim_C8 c8cfg cHandler initMState c8pNoSig rfl rfl (Or.inr (by decide)) rfl).1 rfl,
   (claim_C8 c8cfg cHandler initMState c8pGood rfl rfl (Or.inr (by decide)) rfl).2.1 rfl (by decide),
   (claim_C8 c8cfg cHandler initMState c8pBad rfl rfl (Or.inr (by decide)) rfl).2.2 rfl (by decide)⟩

/-- C10: a structurally valid `"authenticate"` frame whose payload has no
`headers` key makes `_authenticate` call `.items()` on
`payload.get('headers')`, which is `None`: an unhandled `AttributeError`
escapes, instead of an empty mapping being assumed or an error response
being sent (the pending-app flag is even left set). -/
theorem claim_C10 {Req Resp Secret : Type} (cfg : MConfig Secret)
    (h : Handler Req Resp Secret) (s : MState Resp) (p : Payload)
    (hcfg : cfg.authStrategy = true) (hna : s.authentified = false)
    (hpend : s.authApp = false) (hact : p.action = some "authenticate")
    (hhdr : p.headers = none)
    (hval : h.validate_request p (h.create_request p) = none) :
    onMessage cfg h s (InMsg.textMsg (Except.ok p)) =
      { s with authApp := true,
               out := s.out ++ [MEv.exn "AttributeError: NoneType object has no attribute items"] } := by
  simp [onMessage, hval, hcfg, hna, hpend, hact, authenticate, hhdr]

/-- C10 witness: the concrete headerless `authenticate` frame. -/
theorem claim_C10_witness :
    c10cfg.authStrategy = true ∧
    c10p.action = some "authenticate" ∧
    c10p.headers = none ∧
    onMessage c10cfg cHandler c10init (InMsg.textMsg (Except.ok c10p)) =
      { c10init with
          authApp := true,
          out := c10init.out ++
            [MEv.exn "AttributeError: NoneType object has no attribute items"] } :=
  ⟨rfl, rfl, rfl,
    claim_C10 c10cfg cHandler c10init c10p rfl rfl rfl rfl rfl rfl⟩

/-- C1: evaluation of the open → authenticate → close scenario.  After the
close the timer handle is still set and no cancellation ever happened
(`onClose` only logs), so the armed expiry callback survives the
connection teardown; and after the expiry callback runs, the session is
unauthenticated while the handle is still non-null — the claimed
iff-invariant fails on the code in both directions of the lifecycle. -/
theorem claim_C1 :
    c1s2.authentified = true ∧
    c1s2.deauthHandle = some 60 ∧
    onClose c1s2 = c1s2 ∧
    ((onClose c1s2).out.count MEv.timerCancelled = 0) ∧
    (deauthenticate c1s2).authentified = false ∧
    (deauthenticate c1s2).deauthHandle = some 60 := by
  refine ⟨?_, ?_, rfl, ?_, ?_, ?_⟩ <;> decide

/-- C4: the Scenario D notification bytes delivered in one chunk make the
parser hand the factory exactly `("sub1", b"hello")` via `send_data`,
write the reply `HTTP/1.0 200 OK`, and close the connection. -/
theorem claim_C4 :
    data_received initNState dMsg =
      { dataBuf := ascii "hello", phase := NPhase.BODY,
        subscriberId := some (ascii "sub1"), contentLength := 5,
        out := [NEv.sendData (ascii "hello") (ascii "sub1"),
                NEv.wrote (ascii "HTTP/1.0 200 OK\r\n\r\n"), NEv.close] } := by
  decide

/-- C5 counterexample: a request line that does not tokenize into exactly
three tokens (here `POST /sub1`, missing the version token) raises an
unhandled `ValueError` out of `data_received`: no 4xx-equivalent status is
written and the connection is not closed by the parser, contrary to the
claim that every malformed input is recovered locally. -/
theorem claim_C5_counterexample :
    (data_received initNState c5badLine).out = [NEv.exn "ValueError: unpack"] := by
  decide

/-- C5 (amended): a request line with three tokens whose verb is not POST
is answered with `405 Not Allowed` and the connection is closed, and a
completed header block without a content-length header is answered with
`400 Bad Request` and the connection is closed; however a request line
that does not tokenize into exactly three tokens raises an unhandled
`ValueError` out of `data_received` (left to the event loop, still scoped
to this one connection). -/
theorem claim_C5 (chunk rl rest v u ver hb rest2 : List Nat) :
    (splitFirst crlf chunk = some (rl, rest) → splitTokens rl = [v, u, ver] →
      v ≠ bPOST →
      (data_received initNState chunk).out =
        [NEv.wrote (bHTTP10 ++ b405 ++ crlf2), NEv.close]) ∧
    (splitFirst crlf chunk = some (rl, rest) → splitTokens rl = [bPOST, u, ver] →
      splitFirst crlf2 rest = some (hb, rest2) → headerGetCL hb = none →
      (data_received initNState chunk).out =
        [NEv.wrote (bHTTP10 ++ b400 ++ crlf2), NEv.close]) := by
  constructor
  · intro h1 h2 h3
    simp [data_received, appendBuf, initNState, initStep, h1, h2, h3, write_status]
  · intro h1 h2 h3 h4
    simp [data_received, appendBuf, initNState, initStep, h1, h2, headersStep, h3, h4,
      write_status]

/-- C5 witness: the two recovered malformed inputs at concrete byte
strings. -/
theorem claim_C5_witness :
    (data_received initNState c5wBadVerb).out =
      [NEv.wrote (bHTTP10 ++ b405 ++ crlf2), NEv.close] ∧
    (data_received initNState c5wNoCL).out =
      [NEv.wrote (bHTTP10 ++ b400 ++ crlf2), NEv.close] :=
  ⟨(claim_C5 c5wBadVerb (ascii "GET /sub1 HTTP/1.1")
      (ascii "Content-Length: 5\r\n\r\nhello") (ascii "GET") (ascii "/sub1")
      (ascii "HTTP/1.1") [] []).1 (by decide) (by decide) (by decide),
   (claim_C5 c5wNoCL (ascii "POST /sub1 HTTP/1.1") (ascii "Foo: 1\r\n\r\nhello")
      [] (ascii "/sub1") (ascii "HTTP/1.1") (ascii "Foo: 1") (ascii "hello")).2
      (by decide) (by decide) (by decide) (by decide)⟩

/-- Lemma that `splitFirst` really splits: the input is the part before, the pattern,
and the part after. -/
theorem splitFirst_eq {pat : List Nat} :
    ∀ {l x y : List Nat}, splitFirst pat l = some (x, y) → l = x ++ pat ++ y := by
  intro l
  induction l with
  | nil =>
    intro x y h
    simp only [splitFirst] at h
    split at h
    · next hp =>
      have hpat : pat = [] := List.prefix_nil.mp (List.isPrefixOf_iff_prefix.mp hp)
      obtain ⟨rfl, rfl⟩ := Prod.mk.injEq .. ▸ Option.some.inj h
      simp [hpat]
    · exact absurd h (by simp)
  | cons a t ih =>
    intro x y h
    simp only [splitFirst] at h
    split at h
    · next hp =>
      obtain ⟨rfl, rfl⟩ := Prod.mk.injEq .. ▸ Option.some.inj h
      obtain ⟨r, hr⟩ := List.isPrefixOf_iff_prefix.mp hp
      conv_lhs => rw [← hr]
      rw [← hr, List.drop_left]
      simp
    · rw [Option.map_eq_some'] at h
      obtain ⟨⟨x', y'⟩, hx, hfx⟩ := h
      obtain ⟨rfl, rfl⟩ := Prod.mk.injEq .. ▸ hfx
      have := ih hx
      simp [this]

/-- The pattern occurring in `a` means it occurs at the same place in any
extension `a ++ b`. -/
theorem splitFirst_append {pat : List Nat} :
    ∀ {a x y : List Nat} (b : List Nat), splitFirst pat a = some (x, y) →
      splitFirst pat (a ++ b) = some (x, y ++ b) := by
  intro a
  induction a with
  | nil =>
    intro x y b h
    simp only [splitFirst] at h
    split at h
    · next hp =>
      have hpat : pat = [] := List.prefix_nil.mp (List.isPrefixOf_iff_prefix.mp hp)
      obtain ⟨rfl, rfl⟩ := Prod.mk.injEq .. ▸ Option.some.inj h
      subst hpat
      cases b with
      | nil => simp [splitFirst]
      | cons c cs => simp [splitFirst, List.isPrefixOf]
    · exact absurd h (by simp)
  | cons a t ih =>
    intro x y b h
    simp only [splitFirst] at h
    split at h
    · next hp =>
      obtain ⟨rfl, rfl⟩ := Prod.mk.injEq .. ▸ Option.some.inj h
      have hpre : pat <+: a :: t := List.isPrefixOf_iff_prefix.mp hp
      have hpre2 : pat <+: (a :: t) ++ b := hpre.trans (List.prefix_append _ _)
      have hlen : pat.length ≤ (a :: t).length := hpre.length_le
      have hcond : pat.isPrefixOf ((a :: t) ++ b) = true :=
        List.isPrefixOf_iff_prefix.mpr hpre2
      rw [List.cons_append, splitFirst, ← List.cons_append, hcond]
      simp only [if_true]
      rw [List.drop_append_of_le_length hlen]
    · rw [Option.map_eq_some'] at h
      obtain ⟨⟨x', y'⟩, hx, hfx⟩ := h
      obtain ⟨rfl, rfl⟩ := Prod.mk.injEq .. ▸ hfx
      next hnp0 =>
      have hlen : pat.length ≤ t.length := by
        have ht := splitFirst_eq hx
        subst ht
        simp only [List.length_append]
        omega
      have hnp : pat.isPrefixOf ((a :: t) ++ b) = false := by
        rw [Bool.eq_false_iff]
        intro hc
        have hc2 : pat <+: (a :: t) ++ b := List.isPrefixOf_iff_prefix.mp hc
        have hc3 : pat <+: a :: t :=
          List.prefix_of_prefix_length_le hc2 (List.prefix_append _ _)
            (by simp only [List.length_cons]; omega)
        exact hnp0 (List.isPrefixOf_iff_prefix.mpr hc3)
      rw [List.cons_append, splitFirst, ← List.cons_append, hnp]
      simp only [Bool.false_eq_true, if_false]
      rw [List.cons_append] at *
      rw [ih b hx]
      rfl

/-- A list shorter than the pattern has no occurrence of it. -/
theorem splitFirst_none_short {pat : List Nat} :
    ∀ {p : List Nat}, p.length < pat.length → splitFirst pat p = none := by
  intro p
  induction p with
  | nil =>
    intro h
    have : ¬ pat.isPrefixOf ([] : List Nat) := by
      intro hc
      have := (List.prefix_nil.mp (List.isPrefixOf_iff_prefix.mp hc))
      simp [this] at h
    simp [splitFirst, this]
  | cons a t ih =>
    intro h
    have hn : ¬ pat.isPrefixOf (a :: t) := by
      intro hc
      exact absurd ((List.isPrefixOf_iff_prefix.mp hc).length_le) (by omega)
    simp only [splitFirst, if_neg hn]
    rw [ih (by simp at h ⊢; omega)]
    rfl

/-- Occurrence tracking under prefixes: if the pattern first occurs in `m`
after `x`, then a prefix `p` of `m` either contains no occurrence at all,
or contains the occurrence at the very same place, with a remainder that
is a prefix of the remainder in `m`. -/
theorem splitFirst_prefix {pat : List Nat} (hpa : pat ≠ []) :
    ∀ {m p x rest : List Nat}, splitFirst pat m = some (x, rest) → p <+: m →
      splitFirst pat p = none ∨
        ∃ r, splitFirst pat p = some (x, r) ∧ r <+: rest := by
  intro m
  induction m with
  | nil =>
    intro p x rest h _
    simp only [splitFirst, List.isPrefixOf_iff_prefix, List.prefix_nil] at h
    rw [if_neg hpa] at h
    exact absurd h (by simp)
  | cons a t ih =>
    intro p x rest h hp
    cases p with
    | nil =>
      left
      cases pat with
      | nil => exact absurd rfl hpa
      | cons c cs => simp [splitFirst, List.isPrefixOf]
    | cons b q =>
      obtain ⟨rfl, hq⟩ := List.cons_prefix_cons.mp hp
      simp only [splitFirst] at h ⊢
      by_cases hpre : pat.isPrefixOf (b :: t) = true
      · rw [hpre] at h
        simp only [if_true] at h
        obtain ⟨rfl, rfl⟩ := Prod.mk.injEq .. ▸ Option.some.inj h
        by_cases hpp : pat.isPrefixOf (b :: q) = true
        · right
          refine ⟨(b :: q).drop pat.length, by rw [hpp]; simp, ?_⟩
          have hlen : pat.length ≤ (b :: q).length :=
            (List.isPrefixOf_iff_prefix.mp hpp).length_le
          obtain ⟨w, hw⟩ := hp
          rw [← hw, List.drop_append_of_le_length hlen]
          exact List.prefix_append _ _
        · left
          have hlt : (b :: q).length < pat.length := by
            by_contra hge
            exact hpp (List.isPrefixOf_iff_prefix.mpr
              (List.prefix_of_prefix_length_le
                (List.isPrefixOf_iff_prefix.mp hpre) hp (by omega)))
          exact splitFirst_none_short hlt
      · have hpp : pat.isPrefixOf (b :: q) = false := by
          rw [Bool.eq_false_iff]
          intro hc
          exact hpre (List.isPrefixOf_iff_prefix.mpr
            ((List.isPrefixOf_iff_prefix.mp hc).trans hp))
        rw [if_neg hpre] at h
        rw [hpp]
        simp only [Bool.false_eq_true, if_false]
        rw [Option.map_eq_some'] at h
        obtain ⟨⟨x', r'⟩, hx, hfx⟩ := h
        obtain ⟨rfl, rfl⟩ := Prod.mk.injEq .. ▸ hfx
        rcases ih hx hq with hnone | ⟨r, hr, hrp⟩
        · left
          rw [hnone]
          rfl
        · right
          exact ⟨r, by rw [hr]; rfl, hrp⟩

/-- Appending a nonempty event list changes the trace. -/
theorem append_out_ne {o l : List NEv} (hne : l ≠ []) : o ++ l ≠ o := by
  intro h
  have hl := congrArg List.length h
  simp only [List.length_append] at hl
  exact hne (List.length_eq_zero.mp (by omega))

/-- A BODY step that emitted nothing did nothing. -/
theorem bodyStep_eq_of_out {s : NState} (h : (bodyStep s).out = s.out) :
    bodyStep s = s := by
  by_cases hph : s.phase = NPhase.BODY
  · by_cases hlen : s.contentLength ≤ s.dataBuf.length
    · exfalso
      rcases hsub : s.subscriberId with _ | sid
      · have hh : (bodyStep s).out = s.out ++ [NEv.wrote (bHTTP10 ++ b400 ++ crlf2), NEv.close] := by
          simp [bodyStep, hph, hlen, hsub, write_status]
        rw [h] at hh
        exact append_out_ne (by simp) hh.symm
      · by_cases hemp : sid.isEmpty
        · have hh : (bodyStep s).out = s.out ++ [NEv.wrote (bHTTP10 ++ b400 ++ crlf2), NEv.close] := by
            simp [bodyStep, hph, hlen, hsub, hemp, write_status]
          rw [h] at hh
          exact append_out_ne (by simp) hh.symm
        · have hh : (bodyStep s).out =
              s.out ++ [NEv.sendData s.dataBuf sid, NEv.wrote (bHTTP10 ++ b200 ++ crlf2), NEv.close] := by
            simp [bodyStep, hph, hlen, hsub, hemp, write_status]
          rw [h] at hh
          exact append_out_ne (by simp) hh.symm
    · simp [bodyStep, hph, hlen]
  · simp [bodyStep, hph]

/-- The BODY block never changes the phase. -/
theorem bodyStep_phase (s : NState) : (bodyStep s).phase = s.phase := by
  by_cases hph : s.phase = NPhase.BODY
  · by_cases hlen : s.contentLength ≤ s.dataBuf.length
    · rcases hsub : s.subscriberId with _ | sid
      · simp [bodyStep, hph, hlen, hsub, write_status]
      · by_cases hemp : sid.isEmpty <;> simp [bodyStep, hph, hlen, hsub, hemp, write_status]
    · simp [bodyStep, hph, hlen]
  · simp [bodyStep, hph]

/-- The HEADERS block never moves the phase back to INIT. -/
theorem headersStep_phase_ne (s : NState) (h : s.phase ≠ NPhase.INIT) :
    (headersStep s).phase ≠ NPhase.INIT := by
  by_cases hph : s.phase = NPhase.HEADERS
  · rcases hsp : splitFirst crlf2 s.dataBuf with _ | ⟨hb, rest⟩
    · rw [show headersStep s = bodyStep s by simp [headersStep, hph, hsp], bodyStep_phase]
      exact h
    · rcases hcl : headerGetCL hb with _ | v
      · simp [headersStep, hph, hsp, hcl, write_status, hph]
      · by_cases hvE : v.isEmpty
        · simp [headersStep, hph, hsp, hcl, hvE, write_status]
        · rcases hpn : parseNat v with _ | n
          · simp [headersStep, hph, hsp, hcl, hvE, hpn]
          · rw [show headersStep s =
                bodyStep { s with dataBuf := rest, contentLength := n, phase := NPhase.BODY } by
                  simp [headersStep, hph, hsp, hcl, hvE, hpn], bodyStep_phase]
            simp
  · rw [show headersStep s = bodyStep s by simp [headersStep, hph], bodyStep_phase]
    exact h

/-- Restart property of the HEADERS-then-BODY processing: if running it
emitted nothing, then running it again after appending more bytes gives
the same result as appending those bytes first and running once. -/
theorem headersStep_restart (s : NState) (b : List Nat)
    (h : (headersStep s).out = s.out) :
    headersStep (appendBuf (headersStep s) b) = headersStep (appendBuf s b) := by
  by_cases hph : s.phase = NPhase.HEADERS
  · rcases hsp : splitFirst crlf2 s.dataBuf with _ | ⟨hb, rest⟩
    · have he : headersStep s = s := by
        have h1 : headersStep s = bodyStep s := by simp [headersStep, hph, hsp]
        rw [h1]
        exact bodyStep_eq_of_out (by rw [← h1]; exact h)
      rw [he]
    · rcases hcl : headerGetCL hb with _ | v
      · exfalso
        have hh : (headersStep s).out = s.out ++ [NEv.wrote (bHTTP10 ++ b400 ++ crlf2), NEv.close] := by
          simp [headersStep, hph, hsp, hcl, write_status]
        rw [h] at hh
        exact append_out_ne (by simp) hh.symm
      · by_cases hvE : v.isEmpty
        · exfalso
          have hh : (headersStep s).out = s.out ++ [NEv.wrote (bHTTP10 ++ b400 ++ crlf2), NEv.close] := by
            simp [headersStep, hph, hsp, hcl, hvE, write_status]
          rw [h] at hh
          exact append_out_ne (by simp) hh.symm
        · rcases hpn : parseNat v with _ | n
          · exfalso
            have hh : (headersStep s).out = s.out ++ [NEv.exn "ValueError: invalid literal for int"] := by
              simp [headersStep, hph, hsp, hcl, hvE, hpn]
            rw [h] at hh
            exact append_out_ne (by simp) hh.symm
          · have he : headersStep s =
                bodyStep { s with dataBuf := rest, contentLength := n, phase := NPhase.BODY } := by
              simp [headersStep, hph, hsp, hcl, hvE, hpn]
            have hfix : bodyStep { s with dataBuf := rest, contentLength := n, phase := NPhase.BODY } =
                { s with dataBuf := rest, contentLength := n, phase := NPhase.BODY } := by
              apply bodyStep_eq_of_out
              rw [← he, h]
            rw [he, hfix]
            have hR : headersStep (appendBuf s b) =
                bodyStep { s with dataBuf := rest ++ b, contentLength := n, phase := NPhase.BODY } := by
              have hsp2 : splitFirst crlf2 (s.dataBuf ++ b) = some (hb, rest ++ b) :=
                splitFirst_append b hsp
              simp [headersStep, appendBuf, hph, hsp2, hcl, hvE, hpn]
            have hL : headersStep
                (appendBuf { s with dataBuf := rest, contentLength := n, phase := NPhase.BODY } b) =
                bodyStep { s with dataBuf := rest ++ b, contentLength := n, phase := NPhase.BODY } := by
              simp [headersStep, appendBuf]
            rw [hL, hR]
  · have he : headersStep s = bodyStep s := by simp [headersStep, hph]
    have hb2 : bodyStep s = s := bodyStep_eq_of_out (by rw [← he]; exact h)
    rw [he, hb2]

/-- Appending bytes only touches the buffer. -/
theorem appendBuf_phase (s : NState) (b : List Nat) : (appendBuf s b).phase = s.phase := rfl

/-- Off the INIT phase, `initStep` skips straight to the later blocks. -/
theorem initStep_skip {t : NState} (ht : t.phase ≠ NPhase.INIT) :
    initStep t = headersStep t := by
  simp [initStep, ht]

/-- Restart property of a whole `data_received` pass: if a pass emitted
nothing, a later pass on more bytes continues exactly where it left off. -/
theorem initStep_restart (s : NState) (b : List Nat)
    (h : (initStep s).out = s.out) :
    initStep (appendBuf (initStep s) b) = initStep (appendBuf s b) := by
  by_cases hph : s.phase = NPhase.INIT
  · rcases hsp : splitFirst crlf s.dataBuf with _ | ⟨fl, rest⟩
    · have he : initStep s = s := by
        simp [initStep, hph, hsp, headersStep, bodyStep]
      rw [he]
    · rcases htok : splitTokens fl with _ | ⟨verb, toks⟩
      · exfalso
        have hh : (initStep s).out = s.out ++ [NEv.exn "ValueError: unpack"] := by
          simp [initStep, hph, hsp, htok]
        rw [h] at hh
        exact append_out_ne (by simp) hh.symm
      · rcases htk2 : toks with _ | ⟨uri, toks2⟩
        · exfalso
          have hh : (initStep s).out = s.out ++ [NEv.exn "ValueError: unpack"] := by
            simp [initStep, hph, hsp, htok, htk2]
          rw [h] at hh
          exact append_out_ne (by simp) hh.symm
        · rcases htk3 : toks2 with _ | ⟨ver, toks3⟩
          · exfalso
            have hh : (initStep s).out = s.out ++ [NEv.exn "ValueError: unpack"] := by
              simp [initStep, hph, hsp, htok, htk2, htk3]
            rw [h] at hh
            exact append_out_ne (by simp) hh.symm
          · rcases htk4 : toks3 with _ | ⟨x, toks4⟩
            · by_cases hv : verb = bPOST
              · have he : initStep s = headersStep (afterInit s rest uri) := by
                  simp [initStep, hph, hsp, htok, htk2, htk3, htk4, hv, afterInit]
                have hout : (headersStep (afterInit s rest uri)).out =
                    (afterInit s rest uri).out := by
                  rw [← he, h]
                  rfl
                have hLphase : (headersStep (afterInit s rest uri)).phase ≠ NPhase.INIT :=
                  headersStep_phase_ne _ (by simp [afterInit])
                have hL : initStep (appendBuf (initStep s) b) =
                    headersStep (appendBuf (initStep s) b) :=
                  initStep_skip (show (appendBuf (initStep s) b).phase ≠ NPhase.INIT by
                    rw [appendBuf_phase, he]; exact hLphase)
                rw [hL, he, headersStep_restart (afterInit s rest uri) b hout]
                have hsp2 : splitFirst crlf (s.dataBuf ++ b) = some (fl, rest ++ b) :=
                  splitFirst_append b hsp
                have hR : initStep (appendBuf s b) =
                    headersStep (appendBuf (afterInit s rest uri) b) := by
                  simp [initStep, appendBuf, hph, hsp2, htok, htk2, htk3, htk4, hv, afterInit]
                rw [hR]
              · exfalso
                have hh : (initStep s).out = s.out ++ [NEv.wrote (bHTTP10 ++ b405 ++ crlf2), NEv.close] := by
                  simp [initStep, hph, hsp, htok, htk2, htk3, htk4, hv, write_status]
                rw [h] at hh
                exact append_out_ne (by simp) hh.symm
            · exfalso
              have hh : (initStep s).out = s.out ++ [NEv.exn "ValueError: unpack"] := by
                simp [initStep, hph, hsp, htok, htk2, htk3, htk4]
              rw [h] at hh
              exact append_out_ne (by simp) hh.symm
  · have he : initStep s = headersStep s := by simp [initStep, hph]
    have hout : (headersStep s).out = s.out := by rw [← he]; exact h
    have hLphase : (headersStep s).phase ≠ NPhase.INIT := headersStep_phase_ne s hph
    have hL : initStep (appendBuf (initStep s) b) = headersStep (appendBuf (initStep s) b) :=
      initStep_skip (show (appendBuf (initStep s) b).phase ≠ NPhase.INIT by
        rw [appendBuf_phase, he]; exact hLphase)
    rw [hL, he, headersStep_restart s b hout]
    have hR : initStep (appendBuf s b) = headersStep (appendBuf s b) :=
      initStep_skip (show (appendBuf s b).phase ≠ NPhase.INIT by
        rw [appendBuf_phase]; exact hph)
    rw [hR]

/-- Two `data_received` calls compose into one when the first emitted
nothing. -/
theorem data_received_restart (s : NState) (a b : List Nat)
    (h : (data_received s a).out = s.out) :
    data_received (data_received s a) b = data_received s (a ++ b) := by
  have h1 : (initStep (appendBuf s a)).out = (appendBuf s a).out := h
  have h2 := initStep_restart (appendBuf s a) b h1
  have h3 : appendBuf (appendBuf s a) b = appendBuf s (a ++ b) := by
    simp [appendBuf]
  rw [data_received, data_received, data_received, h2, h3]

/-- A well-formed message is not empty. -/
theorem wf_ne_nil {m : List Nat} (hwf : wellFormedMsg m) : m ≠ [] := by
  obtain ⟨rl, uri, ver, hb, body, v, hm, _⟩ := hwf
  intro hcon
  rw [hcon] at hm
  have hL := congrArg List.length hm
  have hc1 : crlf.length = 2 := rfl
  have hc2 : crlf2.length = 4 := rfl
  simp only [List.length_nil, List.length_append] at hL
  omega

/-- Feeding any strict prefix of a well-formed message to a fresh parser
emits nothing: the parser is still waiting for more bytes. -/
theorem prefix_quiet {m p q : List Nat} (hwf : wellFormedMsg m)
    (hpq : p ++ q = m) (hq : q ≠ []) :
    (data_received initNState p).out = [] := by
  obtain ⟨rl, uri, ver, hb, body, v, hm, hs1, htok, hs2, hcl, hvE, hpn, hsub⟩ := hwf
  have hppre : p <+: m := ⟨q, hpq⟩
  have hstart : appendBuf initNState p = pState p := by
    simp [appendBuf, initNState, pState]
  rw [data_received, hstart]
  rcases hsp : splitFirst crlf p with _ | ⟨fl, r⟩
  · simp [initStep, pState, hsp, headersStep, bodyStep]
  · rcases splitFirst_prefix (by decide) hs1 hppre with hnone | ⟨r2, hr2, hrp⟩
    · rw [hnone] at hsp
      exact absurd hsp (by simp)
    · rw [hr2] at hsp
      obtain ⟨rfl, rfl⟩ := Prod.mk.injEq .. ▸ Option.some.inj hsp
      have hinit : initStep (pState p) = headersStep (hState r2 uri) := by
        simp [initStep, pState, hState, hr2, htok]
      rw [hinit]
      rcases hsp2 : splitFirst crlf2 r2 with _ | ⟨hb2, r3⟩
      · simp [headersStep, hState, hsp2, bodyStep]
      · rcases splitFirst_prefix (by decide) hs2 hrp with hnone2 | ⟨r4, hr4, hrp2⟩
        · rw [hnone2] at hsp2
          exact absurd hsp2 (by simp)
        · rw [hr4] at hsp2
          obtain ⟨rfl, rfl⟩ := Prod.mk.injEq .. ▸ Option.some.inj hsp2
          have hp_eq : p = rl ++ crlf ++ r2 := by
            have := splitFirst_eq hr2
            simpa using this
          have hr2_eq : r2 = hb ++ crlf2 ++ r4 := by
            have := splitFirst_eq hr4
            simpa using this
          have hne_body : r4 ≠ body := by
            intro hcon
            subst hcon
            apply hq
            have hpm : p = m := by
              rw [hp_eq, hr2_eq, hm]
              simp
            rw [hpm] at hpq
            have hlq := congrArg List.length hpq
            simp only [List.length_append] at hlq
            exact List.length_eq_zero.mp (by omega)
          have hlt : r4.length < body.length := by
            obtain ⟨w, hw⟩ := hrp2
            have hwne : w ≠ [] := by
              intro hcon
              exact hne_body (by simp [hcon] at hw; exact hw)
            have := congrArg List.length hw
            simp only [List.length_append] at this
            have hwpos : 0 < w.length := List.length_pos.mpr hwne
            omega
          have hhd : headersStep (hState r2 uri) = bodyStep (bState r4 uri body.length) := by
            simp [headersStep, hState, bState, hr4, hcl, hvE, hpn]
          rw [hhd]
          simp [bodyStep, bState, Nat.not_le.mpr hlt]

/-- Chunked feeding of a well-formed message, with every chunk nonempty,
reaches the same final state as feeding it whole; strong induction on the
number of chunks, merging the first two chunks via the restart property. -/
theorem feedAll_join : ∀ (n : Nat) (cs : List (List Nat)) (m : List Nat),
    cs.length ≤ n → wellFormedMsg m → cs.flatten = m → (∀ c ∈ cs, c ≠ []) →
    feedAll initNState cs = data_received initNState m := by
  intro n
  induction n with
  | zero =>
    intro cs m hlen hwf hj _
    have hcs : cs = [] := List.length_eq_zero.mp (Nat.le_zero.mp hlen)
    subst hcs
    exact absurd (by simpa using hj.symm) (wf_ne_nil hwf)
  | succ k ih =>
    intro cs m hlen hwf hj hne
    match cs with
    | [] =>
      exact absurd (by simpa using hj.symm) (wf_ne_nil hwf)
    | [c] =>
      have hc : c = m := by simpa using hj
      subst hc
      simp [feedAll]
    | c1 :: c2 :: t =>
      have hj1 : c1 ++ (c2 :: t).flatten = m := by simpa using hj
      have hq : (c2 :: t).flatten ≠ [] := by
        have hc2 : c2 ≠ [] := hne c2 (by simp)
        simp only [List.flatten_cons]
        intro hcon
        exact hc2 (List.append_eq_nil.mp hcon).1
      have hquiet : (data_received initNState c1).out = [] :=
        prefix_quiet hwf hj1 hq
      have hcomp : data_received (data_received initNState c1) c2 =
          data_received initNState (c1 ++ c2) :=
        data_received_restart initNState c1 c2 hquiet
      have hfold : feedAll initNState (c1 :: c2 :: t) =
          feedAll initNState ((c1 ++ c2) :: t) := by
        simp only [feedAll, List.foldl_cons]
        rw [hcomp]
      rw [hfold]
      apply ih ((c1 ++ c2) :: t) m
      · simp only [List.length_cons] at hlen ⊢
        omega
      · exact hwf
      · simp only [List.flatten_cons] at hj ⊢
        rw [List.append_assoc]
        exact hj
      · intro c hc
        rcases List.mem_cons.mp hc with hc1 | hct
        · subst hc1
          intro hcon
          exact hne c2 (by simp) (List.append_eq_nil.mp hcon).2
        · exact hne c (by simp [hct])

/-- C6: for every well-formed notification message, feeding its bytes to
the parser split at arbitrary chunk boundaries (every chunk nonempty)
yields exactly the same final state — in particular the same
`(subscriberId, body)` pair handed to the fan-out component — as feeding
it in one piece. -/
theorem claim_C6 (cs : List (List Nat)) (m : List Nat) (hwf : wellFormedMsg m)
    (hj : cs.flatten = m) (hne : ∀ c ∈ cs, c ≠ []) :
    feedAll initNState cs = data_received initNState m :=
  feedAll_join cs.length cs m le_rfl hwf hj hne

/-- C6 witness: the Scenario D message is well formed, and feeding it one
byte at a time gives the same final state as feeding it whole. -/
theorem claim_C6_witness :
    wellFormedMsg dMsg ∧
    dChunks.flatten = dMsg ∧
    (∀ c ∈ dChunks, c ≠ []) ∧
    feedAll initNState dChunks = data_received initNState dMsg :=
  have hwf : wellFormedMsg dMsg :=
    ⟨ascii "POST /sub1 HTTP/1.1", ascii "/sub1", ascii "HTTP/1.1",
     ascii "Content-Length: 5", ascii "hello", ascii "5",
     by decide, by decide, by decide, by decide, by decide, by decide, by decide, by decide⟩
  ⟨hwf, by decide, by decide, claim_C6 dChunks dMsg hwf (by decide) (by decide)⟩

